import Mathlib

/-!
Verification of the livesports-bot trading engine against its
natural-language specification.

The Rust source is shallowly embedded over exact rationals: every `f64`
value of the program is modelled as a `Rat`, and the arithmetic of the
program (addition, multiplication, division, `min`, `max`, `clamp`,
comparisons) is carried out exactly.  The embedded definitions mirror the
source functions statement by statement; where the source performs
transcendental floating-point computation (`exp`, `sqrt`, `ln` inside the
sport-specific win-probability leaf models and the Platt gradient-descent
body) the corresponding subterm is abstracted as an explicit function
parameter, and the theorems quantify over every possible value of that
parameter, so every theorem also covers the concrete program.

Source files embedded here:
  src/bot/position.rs        (evaluate_position, compute_levels)
  src/bot/win_probability.rs (estimate_win_probability dispatch and clamp)
  src/bot/kelly.rs           (kelly_stake, edge)
  src/bot/calibration.rs     (fit_platt guard structure)
  src/bot/strategy.rs        (dedup state machine, adaptive thresholds,
                              net PnL, entry loop, manage_positions closes)
-/

/-- Model of `f64::clamp(lo, hi)` from Rust: if the value is below `lo`
return `lo`, above `hi` return `hi`, otherwise the value itself. -/
def clampQ (x lo hi : ℚ) : ℚ :=
  if x < lo then lo else if x > hi then hi else x

/-- Game status, from src/db/models.rs. -/
inductive GameStatus where
  | notStarted
  | inProgress
  | halfTime
  | finished
deriving DecidableEq, Repr

/-- Live game snapshot, from src/db/models.rs (struct LiveGame).
Timestamps and scores are modelled as integers. -/
structure LiveGame where
  event_id : String
  sport : String
  league : String
  home_team : String
  away_team : String
  home_score : ℤ
  away_score : ℤ
  minute : Option ℤ
  status : GameStatus
deriving DecidableEq, Repr

/-- Score change event, from src/db/models.rs (struct ScoreEvent).
The chrono timestamp `detected_at` is modelled as integer seconds. -/
structure ScoreEvent where
  id : Option ℤ := none
  event_id : String
  source_provider : Option String := none
  provider_consensus_count : Option ℤ := none
  sport : String
  league : String
  home_team : String
  away_team : String
  prev_home_score : Option ℤ := none
  prev_away_score : Option ℤ := none
  home_score : ℤ
  away_score : ℤ
  minute : Option ℤ
  event_type : String
  detected_at : ℤ := 0
deriving DecidableEq, Repr

/-- Open or closed trading position, from src/db/models.rs (struct
Position).  All `f64` fields are exact rationals, timestamps are integer
seconds. -/
structure Position where
  id : Option ℤ := none
  market_id : String
  asset_id : Option String := none
  outcome : String
  side : String
  size_usd : ℚ
  entry_price : ℚ
  entry_price_source : Option String := none
  entry_model_prob_raw : Option ℚ := none
  entry_model_prob : Option ℚ := none
  entry_ws_age_ms : Option ℤ := none
  estimated_round_trip_cost_bps : ℚ
  stop_loss_price : ℚ
  take_profit_price : ℚ
  status : String
  opened_at : ℤ
  closed_at : Option ℤ := none
  exit_price : Option ℚ := none
  pnl : Option ℚ := none
  dry_run : Bool
  ws_used_count : ℤ := 0
  rest_fallback_count : ℤ := 0
  last_ws_age_ms : Option ℤ := none
  sport : Option String := none
  league : Option String := none
  event_name : Option String := none
  market_slug : Option String := none
deriving DecidableEq, Repr

/-- Decision made by the position manager for a live position, from
src/bot/position.rs (enum PositionAction). -/
inductive PositionAction where
  | hold
  | takeProfit (exit_price pnl : ℚ)
  | stopLoss (exit_price pnl : ℚ)
deriving DecidableEq, Repr

/-- Evaluate whether to close an open position based on the current
market price, from src/bot/position.rs (fn evaluate_position). -/
def evaluate_position (pos : Position) (current_price : ℚ) : PositionAction :=
  let shares := pos.size_usd / pos.entry_price
  let current_value := shares * current_price
  let pnl := current_value - pos.size_usd
  if current_price ≥ pos.take_profit_price then
    PositionAction.takeProfit current_price pnl
  else if current_price ≤ pos.stop_loss_price then
    PositionAction.stopLoss current_price pnl
  else
    PositionAction.hold

/-- Build stop-loss and take-profit prices for a new YES bet, from
src/bot/position.rs (fn compute_levels). -/
def compute_levels (entry_price stop_loss_fraction take_profit_fraction : ℚ) : ℚ × ℚ :=
  let stop_loss_price := entry_price * (1 - stop_loss_fraction)
  let take_profit_price := min (entry_price * (1 + take_profit_fraction)) 0.99
  (stop_loss_price, take_profit_price)

/-- The sport-specific leaf win-probability models of
src/bot/win_probability.rs (soccer_win_prob, basketball_win_prob,
nfl_win_prob, baseball_win_prob, hockey_win_prob, tennis_win_prob,
fallback_win_prob).  Their bodies use `f64` `exp` and `sqrt`, so they are
abstracted here as arbitrary functions of the game state; every theorem
about `estimate_win_probability` quantifies over all of them and hence
covers the concrete models of the source. -/
structure SportModels where
  soccer_win_prob : LiveGame → ℚ
  basketball_win_prob : LiveGame → ℚ
  nfl_win_prob : LiveGame → ℚ
  baseball_win_prob : LiveGame → ℚ
  hockey_win_prob : LiveGame → ℚ
  tennis_win_prob : LiveGame → ℚ
  fallback_win_prob : LiveGame → ℚ

/-- Estimate the win probability for the specified team, from
src/bot/win_probability.rs (fn estimate_win_probability): dispatch on the
sport tag, flip sides for the away team, clamp into [0.03, 0.97]. -/
def estimate_win_probability (M : SportModels) (event : ScoreEvent)
    (game : LiveGame) (for_home : Bool) : ℚ :=
  let raw :=
    if event.sport = "soccer" ∨ event.sport = "football" ∨ event.sport = "football_eu" then
      M.soccer_win_prob game
    else if event.sport = "basketball" ∨ event.sport = "nba" then
      M.basketball_win_prob game
    else if event.sport = "american_football" ∨ event.sport = "nfl" then
      M.nfl_win_prob game
    else if event.sport = "baseball" ∨ event.sport = "mlb" then
      M.baseball_win_prob game
    else if event.sport = "ice_hockey" ∨ event.sport = "nhl" then
      M.hockey_win_prob game
    else if event.sport = "tennis" then
      M.tennis_win_prob game
    else
      M.fallback_win_prob game
  let p := if for_home then raw else 1 - raw
  clampQ p 0.03 0.97

/-- Calculate the Kelly stake fraction, from src/bot/kelly.rs
(fn kelly_stake). -/
def kelly_stake (win_prob market_price kelly_fraction : ℚ) : ℚ :=
  if market_price ≤ 0 ∨ market_price ≥ 1 then 0
  else
    let b := 1 / market_price - 1
    let p := win_prob
    let q := 1 - p
    let f := (b * p - q) / b
    if f ≤ 0 then 0
    else max (min (f * kelly_fraction) 1) 0

/-- Calculate the edge (expected value) of a bet, from src/bot/kelly.rs
(fn edge). -/
def edge (win_prob market_price : ℚ) : ℚ :=
  if market_price ≤ 0 then 0 else win_prob / market_price - 1

/-- Platt calibration parameters, from src/bot/calibration.rs. -/
structure PlattCalibration where
  a : ℚ
  b : ℚ
deriving DecidableEq, Repr

/-- Fit quality metrics, from src/bot/calibration.rs. -/
structure FitMetrics where
  logloss_before : ℚ
  logloss_after : ℚ
  brier_before : ℚ
  brier_after : ℚ
deriving DecidableEq, Repr

/-- Result of a Platt fit, from src/bot/calibration.rs. -/
structure FitResult where
  calibration : PlattCalibration
  metrics : FitMetrics
deriving DecidableEq, Repr

/-- Fit a Platt calibration, from src/bot/calibration.rs (fn fit_platt).
The two rejection guards (fewer than 8 samples; single-class labels,
where a positive label is `y > 0.5`) are embedded verbatim from the
source.  The gradient-descent body and metric computation that follow the
guards use `f64` `exp` and `ln`, so they are abstracted as the `descent`
parameter; the theorem about the guards quantifies over every `descent`. -/
def fit_platt (descent : List (ℚ × ℚ) → ℕ → ℚ → ℚ → Option FitResult)
    (samples : List (ℚ × ℚ)) (max_iters : ℕ) (learning_rate l2 : ℚ) :
    Option FitResult :=
  if samples.length < 8 then none
  else
    let positives := samples.countP (fun s => decide (s.2 > 0.5))
    if positives = 0 ∨ positives = samples.length then none
    else descent samples max_iters learning_rate l2

/-- Per-event dedup key, from src/bot/strategy.rs
(fn BotEngine::event_dedup_key): the six fingerprint fields joined by
pipes, with a missing minute rendered as -1. -/
def event_dedup_key (event : ScoreEvent) : String :=
  event.event_id ++ "|" ++ toString event.home_score ++ "|" ++
    toString event.away_score ++ "|" ++ toString (event.minute.getD (-1)) ++ "|" ++
    event.event_type ++ "|" ++ event.league

/-- The two bounded maps used by the dedup logic of src/bot/strategy.rs:
`recent_event_keys : HashMap<String, DateTime>` and
`last_score_by_event : HashMap<String, (i32, i32, DateTime)>`.  A hash map
is modelled as an association list whose keys are pairwise distinct;
lookup reads the first matching entry and insert replaces the matching
entry, so the model agrees with the map on every reachable state. -/
structure EngineDedupState where
  recent_event_keys : List (String × ℤ)
  last_score_by_event : List (String × (ℤ × ℤ × ℤ))
deriving DecidableEq, Repr

/-- Hash map lookup on the association-list model. -/
def assoc_get {β : Type} (m : List (String × β)) (k : String) : Option β :=
  (m.find? (fun e => decide (e.1 = k))).map Prod.snd

/-- Hash map insert-or-replace on the association-list model. -/
def assoc_insert {β : Type} (m : List (String × β)) (k : String) (v : β) :
    List (String × β) :=
  (k, v) :: m.eraseP (fun e => decide (e.1 = k))

/-- Prune the dedup maps, from src/bot/strategy.rs
(fn BotEngine::cleanup_event_quality_maps): drop entries older than three
dedup windows, then hard-reset either map if it still holds more than
100000 entries.  `w` is `score_event_dedup_window_secs`, `now` is the
current time in seconds. -/
def cleanup_event_quality_maps (w now : ℤ) (s : EngineDedupState) :
    EngineDedupState :=
  let cutoff := now - w * 3
  let recent := s.recent_event_keys.filter (fun e => decide (e.2 ≥ cutoff))
  let last := s.last_score_by_event.filter (fun e => decide (e.2.2.2 ≥ cutoff))
  let recent := if recent.length > 100000 then [] else recent
  let last := if last.length > 100000 then [] else last
  ⟨recent, last⟩

/-- Decide whether a score event is a duplicate, from src/bot/strategy.rs
(fn BotEngine::should_skip_event).  Returns the skip decision together
with the updated dedup state; `Utc::now()` is passed in as `now`. -/
def should_skip_event (w now : ℤ) (event : ScoreEvent) (s : EngineDedupState) :
    Bool × EngineDedupState :=
  let s := cleanup_event_quality_maps w now s
  let key := event_dedup_key event
  let skip_by_key :=
    match assoc_get s.recent_event_keys key with
    | some prev => decide (prev + w ≥ now)
    | none => false
  if skip_by_key then (true, s)
  else
    let skip_by_score :=
      match assoc_get s.last_score_by_event event.event_id with
      | some (home, away, ts) =>
          decide (home = event.home_score) && decide (away = event.away_score) &&
            decide (ts + w ≥ now)
      | none => false
    if skip_by_score then (true, s)
    else
      (false,
        ⟨assoc_insert s.recent_event_keys key now,
         assoc_insert s.last_score_by_event event.event_id
           (event.home_score, event.away_score, now)⟩)

/-- Adaptive minimum-edge add-on, from src/bot/strategy.rs
(fn BotEngine::compute_adaptive_edge_addon). -/
def compute_adaptive_edge_addon (priced_in_r residual_move fallback_rate
    ws_age_ms base_min_residual ws_max_age_ms addon_cap : ℚ) : ℚ :=
  let addon : ℚ := 0
  let addon := addon + min (max (priced_in_r - 0.70) 0 * 0.02) 0.02
  let addon := addon + min (max (base_min_residual - residual_move) 0 * 0.50) 0.02
  let addon := addon + min (clampQ fallback_rate 0 1 * 0.02) 0.02
  let addon := if ws_age_ms > ws_max_age_ms then addon + 0.01 else addon
  max (min addon addon_cap) 0

/-- Adaptive entry-quote divergence limit, from src/bot/strategy.rs
(fn BotEngine::compute_adaptive_divergence_limit). -/
def compute_adaptive_divergence_limit (base_limit tightening fallback_rate
    priced_in_r : ℚ) : ℚ :=
  let limit := base_limit
  let limit := limit * max (1 - tightening * clampQ fallback_rate 0 1) 0.5
  let priced := min (max (priced_in_r - 0.7) 0) 1
  let limit := limit * max (1 - 0.5 * tightening * priced) 0.6
  max limit 0.01

/-- The divergence-limit formula exactly as the specification states it
(spec section 4.9): `max(0.01, base times (1 - tightening times fallback)
times (1 - 0.5 times tightening times max(0, priced_in - 0.7)))`.  Written
from the words of the spec, to be compared with the source definition
above. -/
def divergence_limit_spec_formula (base_limit tightening fallback_rate
    priced_in_r : ℚ) : ℚ :=
  max 0.01 (base_limit * (1 - tightening * fallback_rate) *
    (1 - 0.5 * tightening * max 0 (priced_in_r - 0.7)))

/-- Net PnL of a position at a mark price, from src/bot/strategy.rs
(fn BotEngine::position_net_pnl): gross PnL minus the estimated
round-trip execution cost. -/
def position_net_pnl (pos : Position) (current_price : ℚ) : ℚ :=
  let shares := pos.size_usd / pos.entry_price
  let gross := shares * current_price - pos.size_usd
  let estimated_cost := pos.size_usd * (pos.estimated_round_trip_cost_bps / 10000)
  gross - estimated_cost

/-- Time-exit test, from src/bot/strategy.rs (fn BotEngine::should_time_exit).
Times are integer seconds; the chrono subtraction is exact. -/
def should_time_exit (opened_at now : ℤ) (max_age_secs : ℕ) : Bool :=
  decide (max (now - opened_at) 0 ≥ (max_age_secs : ℤ))

/-- The close decision and recorded values for one open position during a
manage-positions sweep, from src/bot/strategy.rs
(fn BotEngine::manage_positions, per-position loop after a usable mark
`current_price` was resolved): feed-health force-flatten and time exit
close at the net PnL of `position_net_pnl`; otherwise the position is
closed exactly when `evaluate_position` returns a take-profit or
stop-loss action, recording the status string, the exit price and the
PnL carried by that action.  Returns `none` when the position is held. -/
def manage_position_close (force_flatten : Bool) (now : ℤ) (max_age_secs : ℕ)
    (pos : Position) (current_price : ℚ) : Option (String × ℚ × ℚ) :=
  if force_flatten then
    some ("closed_feed_health", current_price, position_net_pnl pos current_price)
  else if should_time_exit pos.opened_at now max_age_secs then
    some ("closed_time_exit", current_price, position_net_pnl pos current_price)
  else
    match evaluate_position pos current_price with
    | PositionAction.takeProfit exit_price pnl => some ("closed_profit", exit_price, pnl)
    | PositionAction.stopLoss exit_price pnl => some ("closed_stop_loss", exit_price, pnl)
    | PositionAction.hold => none

/-- Per-event fixed parameters of the entry loop of
src/bot/strategy.rs (fn BotEngine::on_score_event), drawn from the
engine configuration and the score event being processed. -/
structure EntryParams where
  kelly_fraction : ℚ
  stop_loss_fraction : ℚ
  take_profit_fraction : ℚ
  estimated_round_trip_cost_bps : ℚ
  dry_run : Bool
  sport : String
  league : String
  home_team : String
  away_team : String
  now : ℤ

/-- One candidate market of the entry loop together with the outcome of
the gates that do not touch the engine state.  `price` and
`true_win_prob` are the entry price and calibrated probability of the
chosen side; `pre_gates_pass` stands for the YES-is-home inference, quote
resolution, edge-threshold and divergence checks that run before Kelly
sizing, `post_gates_pass` for the portfolio exposure caps that run after
the stake guards, and `order_ok` for order placement succeeding (always
true in dry-run).  None of those checks reads or writes the cash balance
or the open-market set, so they are abstracted as booleans and the
theorems quantify over all of their values. -/
structure EntryCandidate where
  market_id : String
  market_slug : Option String
  question : String
  outcome : String
  price : ℚ
  true_win_prob_raw : ℚ
  true_win_prob : ℚ
  asset_id : Option String
  price_source : String
  ws_age_ms : Option ℤ
  pre_gates_pass : Bool
  post_gates_pass : Bool
  order_ok : Bool

/-- Mutable state of the entry loop of
src/bot/strategy.rs (fn BotEngine::on_score_event, lines 1042-1538): the
cash balance, the list of open positions, and the set of market ids that
already carry an open position. -/
structure EntryState where
  balance : ℚ
  open_positions : List Position
  open_market_ids : Finset String

/-- Initial entry-loop state, from src/bot/strategy.rs lines 1042-1044:
the open-market set is collected from the market ids of the open
positions. -/
def init_entry_state (balance : ℚ) (open_positions : List Position) : EntryState :=
  ⟨balance, open_positions, (open_positions.map Position.market_id).toFinset⟩

/-- The position record built at entry, from src/bot/strategy.rs lines
1502-1530. -/
def make_entry_position (P : EntryParams) (c : EntryCandidate) (stake_usd : ℚ) :
    Position :=
  let levels := compute_levels c.price P.stop_loss_fraction P.take_profit_fraction
  { market_id := c.market_id
    asset_id := c.asset_id
    outcome := c.outcome
    side := "buy"
    size_usd := stake_usd
    entry_price := c.price
    entry_price_source := some c.price_source
    entry_model_prob_raw := some c.true_win_prob_raw
    entry_model_prob := some c.true_win_prob
    entry_ws_age_ms := c.ws_age_ms
    estimated_round_trip_cost_bps := P.estimated_round_trip_cost_bps
    stop_loss_price := levels.1
    take_profit_price := levels.2
    status := "open"
    opened_at := P.now
    dry_run := P.dry_run
    sport := some P.sport
    league := some P.league
    event_name := some (P.home_team ++ " vs " ++ P.away_team)
    market_slug := c.market_slug }

/-- One iteration of the per-market entry loop, from src/bot/strategy.rs
(fn BotEngine::on_score_event, lines 1085-1538): skip markets that
already hold an open position; run the pre-sizing gates; Kelly-size the
stake from the current balance; skip stakes below one dollar or above the
balance; run the exposure caps and order placement; on success record the
position, debit the balance and add the market id to the open set. -/
def process_market (P : EntryParams) (s : EntryState) (c : EntryCandidate) :
    EntryState :=
  if c.market_id ∈ s.open_market_ids then s
  else if ¬ c.pre_gates_pass then s
  else
    let stake_fraction := kelly_stake c.true_win_prob c.price P.kelly_fraction
    let stake_usd := s.balance * stake_fraction
    if stake_usd < 1 then s
    else if stake_usd > s.balance then s
    else if ¬ c.post_gates_pass then s
    else if ¬ c.order_ok then s
    else
      { balance := s.balance - stake_usd
        open_positions := s.open_positions ++ [make_entry_position P c stake_usd]
        open_market_ids := insert c.market_id s.open_market_ids }

/-- The whole per-market entry loop over the candidate markets of one
score event. -/
def process_markets (P : EntryParams) (cands : List EntryCandidate)
    (s : EntryState) : EntryState :=
  cands.foldl (process_market P) s

/-- Concrete open position used to examine the recorded PnL of a
take-profit close: entry 0.5, size 10 dollars, estimated round-trip cost
100 bps, take-profit level 0.65, stop-loss level 0.25. -/
def tp_cost_position : Position :=
  { market_id := "mkt1"
    outcome := "YES"
    side := "buy"
    size_usd := 10
    entry_price := 0.5
    estimated_round_trip_cost_bps := 100
    stop_loss_price := 0.25
    take_profit_price := 0.65
    status := "open"
    opened_at := 0
    dry_run := true }

/-- Concrete position with degenerate exit levels (take-profit below
stop-loss), used to exercise the take-profit-first branch order. -/
def degenerate_levels_position : Position :=
  { market_id := "mkt2"
    outcome := "YES"
    side := "buy"
    size_usd := 10
    entry_price := 0.5
    estimated_round_trip_cost_bps := 0
    stop_loss_price := 0.6
    take_profit_price := 0.4
    status := "open"
    opened_at := 0
    dry_run := true }

/-- Concrete score event used for the dedup scenarios. -/
def dedup_cex_event : ScoreEvent :=
  { event_id := "ev1"
    sport := "soccer"
    league := "L"
    home_team := "A"
    away_team := "B"
    home_score := 2
    away_score := 1
    minute := some 75
    event_type := "goal"
    detected_at := 0 }

/-- The i-th filler score event of the dedup counterexample state: a
distinct game (event id starting with the letter x, varying by index)
whose fingerprint was recorded by an earlier processed event. -/
def dedup_spam_event (i : ℕ) : ScoreEvent :=
  { event_id := "x" ++ toString i
    sport := "soccer"
    league := "L"
    home_team := "C"
    away_team := "D"
    home_score := 0
    away_score := 0
    minute := some 0
    event_type := "goal"
    detected_at := 0 }

/-- A recent-fingerprint map holding exactly 100000 fresh entries, one
per filler game, none of them for the event id ev1. -/
def dedup_cex_recent : List (String × ℤ) :=
  (List.range 100000).map (fun i => (event_dedup_key (dedup_spam_event i), 0))

/-- A last-score map holding exactly 100000 fresh entries, one per
filler game, none of them for the event id ev1. -/
def dedup_cex_last : List (String × (ℤ × ℤ × ℤ)) :=
  (List.range 100000).map (fun i => ((dedup_spam_event i).event_id, (0, 0, 0)))

/-- A reachable dedup state holding exactly 100000 fresh entries in each
map (100000 distinct games processed within the dedup window), none of
them for the event id ev1. -/
def dedup_cex_state : EngineDedupState :=
  ⟨dedup_cex_recent, dedup_cex_last⟩

/-- Concrete entry-loop parameters used by witnesses. -/
def entry_params_w : EntryParams :=
  { kelly_fraction := 0.25
    stop_loss_fraction := 0.5
    take_profit_fraction := 0.3
    estimated_round_trip_cost_bps := 60
    dry_run := true
    sport := "soccer"
    league := "EPL"
    home_team := "A"
    away_team := "B"
    now := 0 }

/-- Concrete entry candidate used by witnesses: price 0.5, calibrated
probability 0.7, all gates passing. -/
def entry_cand_w : EntryCandidate :=
  { market_id := "mkt1"
    market_slug := some "a-vs-b"
    question := "Will A win"
    outcome := "YES"
    price := 0.5
    true_win_prob_raw := 0.7
    true_win_prob := 0.7
    asset_id := some "asset1"
    price_source := "ws"
    ws_age_ms := some 400
    pre_gates_pass := true
    post_gates_pass := true
    order_ok := true }

/-- The clamp of a value into [lo, hi] stays inside [lo, hi]. -/
theorem clampQ_mem (x lo hi : ℚ) (h : lo ≤ hi) :
    lo ≤ clampQ x lo hi ∧ clampQ x lo hi ≤ hi := by
  unfold clampQ
  split_ifs <;> constructor <;> linarith

/-- Clamping is monotone in the clamped value. -/
theorem clampQ_mono (lo hi x y : ℚ) (hlh : lo ≤ hi) (h : x ≤ y) :
    clampQ x lo hi ≤ clampQ y lo hi := by
  unfold clampQ
  split_ifs <;> linarith

/-- Clamping a value and its complement into [0.03, 0.97] yields values
summing to one exactly. -/
theorem clampQ_sum_compl (r : ℚ) :
    clampQ r 0.03 0.97 + clampQ (1 - r) 0.03 0.97 = 1 := by
  unfold clampQ
  split_ifs <;> norm_num <;> linarith

/-- C2: for every sport string and every game state, the home and away
win-probability estimates sum to one exactly, and each lies in
[0.03, 0.97].  The statement quantifies over all sport-specific leaf
models, so it covers the concrete models of win_probability.rs. -/
theorem claim_C2_win_probability_symmetry (M : SportModels) (event : ScoreEvent)
    (game : LiveGame) :
    estimate_win_probability M event game true +
      estimate_win_probability M event game false = 1
    ∧ ∀ for_home : Bool,
        0.03 ≤ estimate_win_probability M event game for_home ∧
        estimate_win_probability M event game for_home ≤ 0.97 := by
  constructor
  · exact clampQ_sum_compl _
  · intro for_home
    exact clampQ_mem _ _ _ (by norm_num)

/-- C3: the Kelly stake is always in [0, 1]; it is 0 whenever the market
price is outside (0, 1); betting at the market-implied probability gives
stake 0; kelly_stake(0.6, 0.5, 1) = 0.20 within 1e-9 and
kelly_stake(0.6, 0.5, 0.25) = 0.05. -/
theorem claim_C3_kelly_stake :
    (∀ p m k : ℚ, 0 ≤ kelly_stake p m k ∧ kelly_stake p m k ≤ 1)
    ∧ (∀ p m k : ℚ, m ≤ 0 ∨ m ≥ 1 → kelly_stake p m k = 0)
    ∧ (∀ m : ℚ, 0 < m → m < 1 → kelly_stake m m 1 = 0)
    ∧ |kelly_stake 0.6 0.5 1 - 0.20| < 1 / 10 ^ 9
    ∧ kelly_stake 0.6 0.5 0.25 = 0.05 := by
  refine ⟨?_, ?_, ?_, by norm_num [kelly_stake], by norm_num [kelly_stake]⟩
  · intro p m k
    unfold kelly_stake
    dsimp only
    split_ifs with h1 h2
    · norm_num
    · norm_num
    · exact ⟨le_max_right _ _, max_le (min_le_right _ _) zero_le_one⟩
  · intro p m k h
    unfold kelly_stake
    rw [if_pos h]
  · intro m h0 h1
    have hm : m ≠ 0 := ne_of_gt h0
    unfold kelly_stake
    rw [if_neg (by push_neg; exact ⟨h0, h1⟩)]
    have hf : ((1 / m - 1) * m - (1 - m)) / (1 / m - 1) = 0 := by
      have hnum : (1 / m - 1) * m - (1 - m) = 0 := by
        field_simp
      rw [hnum, zero_div]
    simp only [hf, le_refl, if_pos]

/-- Witness for C3: the hypotheses of the conjuncts are satisfiable at
concrete inputs. -/
theorem claim_C3_kelly_stake_witness :
    kelly_stake 0.5 0 1 = 0 ∧ kelly_stake 0.5 0.5 1 = 0 :=
  ⟨claim_C3_kelly_stake.2.1 0.5 0 1 (Or.inl le_rfl),
   claim_C3_kelly_stake.2.2.1 0.5 (by norm_num) (by norm_num)⟩

/-- Counterexample for C4: at base 0.08, tightening 0.9, fallback rate
0.9, priced-in 0.6 the code yields 0.04 (the 0.5 floor on the fallback
factor binds) while the formula stated by the claim yields 0.0152, so the
claimed equality is false. -/
theorem claim_C4_counterexample :
    compute_adaptive_divergence_limit 0.08 0.9 0.9 0.6 = 0.04
    ∧ divergence_limit_spec_formula 0.08 0.9 0.9 0.6 = 0.0152
    ∧ compute_adaptive_divergence_limit 0.08 0.9 0.9 0.6 ≠
        divergence_limit_spec_formula 0.08 0.9 0.9 0.6 := by
  refine ⟨?_, ?_, ?_⟩ <;>
    norm_num [compute_adaptive_divergence_limit, divergence_limit_spec_formula,
      clampQ]

/-- C4 amended: the adaptive divergence limit equals
`max(0.01, base * max(0.5, 1 - tightening * clamp(fallback, 0, 1)) *
max(0.6, 1 - 0.5 * tightening * min(1, max(0, priced_in - 0.7))))`:
the code clamps the fallback rate into [0, 1], floors the fallback
tightening factor at 0.5, caps the priced-in excess at 1 and floors the
priced-in tightening factor at 0.6, none of which appear in the claimed
formula. -/
theorem claim_C4_amended_divergence_limit (base t f pr : ℚ) :
    compute_adaptive_divergence_limit base t f pr =
      max 0.01 (base * max (1 - t * clampQ f 0 1) 0.5 *
        max (1 - 0.5 * t * min (max (pr - 0.7) 0) 1) 0.6) := by
  unfold compute_adaptive_divergence_limit
  exact max_comm _ _

/-- C10: when the exit levels are degenerate so the mark satisfies both
the take-profit and the stop-loss condition, evaluate_position returns
the take-profit action, never the stop-loss action. -/
theorem claim_C10_take_profit_first (pos : Position) (price : ℚ)
    (htp : price ≥ pos.take_profit_price) (hsl : price ≤ pos.stop_loss_price) :
    evaluate_position pos price =
      PositionAction.takeProfit price
        (pos.size_usd / pos.entry_price * price - pos.size_usd) := by
  unfold evaluate_position
  dsimp only
  rw [if_pos htp]

/-- Witness for C10: a concrete degenerate position (take-profit 0.4,
stop-loss 0.6) marked at 0.5 satisfies both exit conditions and closes as
a take-profit. -/
theorem claim_C10_take_profit_first_witness :
    evaluate_position degenerate_levels_position 0.5 =
      PositionAction.takeProfit 0.5
        (degenerate_levels_position.size_usd / degenerate_levels_position.entry_price
          * 0.5 - degenerate_levels_position.size_usd) :=
  claim_C10_take_profit_first degenerate_levels_position 0.5
    (by norm_num [degenerate_levels_position]) (by norm_num [degenerate_levels_position])

/-- C6: the adaptive edge add-on is monotone non-decreasing in the
fallback rate and in the priced-in share, and, for the validated
configuration range with a non-negative cap, its value lies in
[0, addon_cap]. -/
theorem claim_C6_edge_addon (pr pr2 rm fb fb2 wa bmr wma cap : ℚ) :
    (fb ≤ fb2 → compute_adaptive_edge_addon pr rm fb wa bmr wma cap ≤
        compute_adaptive_edge_addon pr rm fb2 wa bmr wma cap)
    ∧ (pr ≤ pr2 → compute_adaptive_edge_addon pr rm fb wa bmr wma cap ≤
        compute_adaptive_edge_addon pr2 rm fb wa bmr wma cap)
    ∧ (0 ≤ cap → 0 ≤ compute_adaptive_edge_addon pr rm fb wa bmr wma cap ∧
        compute_adaptive_edge_addon pr rm fb wa bmr wma cap ≤ cap) := by
  unfold compute_adaptive_edge_addon
  dsimp only
  refine ⟨?_, ?_, ?_⟩
  · intro h
    have h3 : min (clampQ fb 0 1 * 0.02) 0.02 ≤ min (clampQ fb2 0 1 * 0.02) 0.02 :=
      min_le_min
        (mul_le_mul_of_nonneg_right (clampQ_mono 0 1 fb fb2 (by norm_num) h)
          (by norm_num)) le_rfl
    apply max_le_max _ le_rfl
    apply min_le_min _ le_rfl
    split_ifs <;> linarith
  · intro h
    have h1 : min (max (pr - 0.70) 0 * 0.02) 0.02 ≤
        min (max (pr2 - 0.70) 0 * 0.02) 0.02 :=
      min_le_min
        (mul_le_mul_of_nonneg_right (max_le_max (by linarith) le_rfl)
          (by norm_num)) le_rfl
    apply max_le_max _ le_rfl
    apply min_le_min _ le_rfl
    split_ifs <;> linarith
  · intro hcap
    exact ⟨le_max_right _ _, max_le (min_le_right _ _) hcap⟩

/-- Witness for C6: the non-negative-cap hypothesis holds at the concrete
cap 0.03 and the bound conclusion follows there. -/
theorem claim_C6_edge_addon_witness :
    0 ≤ compute_adaptive_edge_addon 0.8 0.001 0.5 200 0.01 2500 0.03 ∧
    compute_adaptive_edge_addon 0.8 0.001 0.5 200 0.01 2500 0.03 ≤ 0.03 :=
  (claim_C6_edge_addon 0.8 0.8 0.001 0.5 0.5 200 0.01 2500 0.03).2.2 (by norm_num)

/-- C7: fit_platt rejects (returns none) whenever there are fewer than 8
samples or the labels are single-class (all labels above 0.5 or none
above 0.5), for every gradient-descent body. -/
theorem claim_C7_fit_platt_rejects
    (descent : List (ℚ × ℚ) → ℕ → ℚ → ℚ → Option FitResult)
    (samples : List (ℚ × ℚ)) (max_iters : ℕ) (learning_rate l2 : ℚ)
    (h : samples.length < 8 ∨ (∀ s ∈ samples, s.2 > 0.5) ∨
      (∀ s ∈ samples, ¬ s.2 > 0.5)) :
    fit_platt descent samples max_iters learning_rate l2 = none := by
  unfold fit_platt
  dsimp only
  split_ifs with h8 hcls
  · rfl
  · rfl
  · exfalso
    apply hcls
    rcases h with h | h | h
    · exact absurd h h8
    · right
      refine List.countP_eq_length.mpr ?_
      intro s hs
      simpa using h s hs
    · left
      refine List.countP_eq_zero.mpr ?_
      intro s hs
      simpa using h s hs

/-- Witness for C7: the empty sample list has fewer than 8 elements and
is rejected. -/
theorem claim_C7_fit_platt_rejects_witness :
    fit_platt (fun _ _ _ _ => none) [] 100 0.2 0.001 = none :=
  claim_C7_fit_platt_rejects (fun _ _ _ _ => none) [] 100 0.2 0.001
    (Or.inl (by decide))

/-- Counterexample for C1: the position with entry 0.5, size 10 and
estimated round-trip cost 100 bps, marked at 0.75 with neither the
feed-health flatten nor the time exit active, is closed by take-profit
with recorded pnl exactly 5: the net formula would give 4.9, and 5 does
not lie in the open interval (4.8, 5.0). -/
theorem claim_C1_counterexample :
    manage_position_close false 10 86400 tp_cost_position 0.75 =
      some ("closed_profit", 0.75, 5)
    ∧ position_net_pnl tp_cost_position 0.75 = 4.9
    ∧ ¬ ((4.8 : ℚ) < 5 ∧ (5 : ℚ) < 5) := by
  refine ⟨?_, ?_, ?_⟩
  · norm_num [manage_position_close, should_time_exit, evaluate_position,
      tp_cost_position]
  · norm_num [position_net_pnl, tp_cost_position]
  · norm_num

/-- C1 amended: positions closed by the feed-health flatten or the time
exit record the net PnL `(size/entry)*mark - size -
size*(cost_bps/10000)`, while positions closed by take-profit or
stop-loss record the gross PnL `(size/entry)*mark - size` without the
cost deduction (so the example position closes at pnl exactly 5.0, not
within (4.8, 5.0)). -/
theorem claim_C1_amended_close_pnl (now : ℤ) (max_age_secs : ℕ)
    (pos : Position) (price : ℚ) :
    manage_position_close true now max_age_secs pos price =
      some ("closed_feed_health", price, position_net_pnl pos price)
    ∧ (should_time_exit pos.opened_at now max_age_secs = true →
        manage_position_close false now max_age_secs pos price =
          some ("closed_time_exit", price, position_net_pnl pos price))
    ∧ (∀ st ep pnl,
        manage_position_close false now max_age_secs pos price =
          some (st, ep, pnl) →
        st = "closed_profit" ∨ st = "closed_stop_loss" →
        ep = price ∧
          pnl = pos.size_usd / pos.entry_price * price - pos.size_usd) := by
  refine ⟨rfl, ?_, ?_⟩
  · intro h
    unfold manage_position_close
    rw [if_neg (by simp), if_pos h]
  · intro st ep pnl hcl hst
    unfold manage_position_close at hcl
    rw [if_neg (by simp)] at hcl
    by_cases hte : should_time_exit pos.opened_at now max_age_secs = true
    · rw [if_pos hte] at hcl
      simp only [Option.some.injEq, Prod.mk.injEq] at hcl
      obtain ⟨h1, -, -⟩ := hcl
      rcases hst with rfl | rfl <;> exact absurd h1 (by decide)
    · rw [if_neg hte] at hcl
      unfold evaluate_position at hcl
      dsimp only at hcl
      split_ifs at hcl with h1 h2
      · simp only [Option.some.injEq, Prod.mk.injEq] at hcl
        obtain ⟨-, he, hp⟩ := hcl
        exact ⟨he.symm, hp.symm⟩
      · simp only [Option.some.injEq, Prod.mk.injEq] at hcl
        obtain ⟨-, he, hp⟩ := hcl
        exact ⟨he.symm, hp.symm⟩

/-- Witness for C1 amended: a concrete time-exit close records the net
PnL. -/
theorem claim_C1_amended_close_pnl_witness :
    manage_position_close false 90000 86400 tp_cost_position 0.75 =
      some ("closed_time_exit", 0.75, position_net_pnl tp_cost_position 0.75) :=
  (claim_C1_amended_close_pnl 90000 86400 tp_cost_position 0.75).2.1 (by decide)

/-- One entry-loop iteration keeps a non-negative balance non-negative:
the only branch that changes the balance debits a stake that was checked
against the balance. -/
theorem process_market_balance_nonneg (P : EntryParams) (c : EntryCandidate)
    (s : EntryState) (h : 0 ≤ s.balance) :
    0 ≤ (process_market P s c).balance := by
  unfold process_market
  dsimp only
  split_ifs with h1 h2 h3 h4 h5 h6
  · exact h
  · exact h
  · exact h
  · dsimp only
    push_neg at h4
    linarith
  · exact h
  · exact h
  · exact h

/-- The whole entry loop keeps a non-negative balance non-negative. -/
theorem process_markets_balance_nonneg (P : EntryParams) :
    ∀ (cands : List EntryCandidate) (s : EntryState), 0 ≤ s.balance →
      0 ≤ (process_markets P cands s).balance := by
  intro cands
  induction cands with
  | nil => intro s h; exact h
  | cons c rest ih =>
      intro s h
      exact ih _ (process_market_balance_nonneg P c s h)

/-- C8: the entry path never drives the cash balance negative.  If the
balance is non-negative before a score event is processed it stays
non-negative after the whole market loop and after every prefix of it;
moreover any iteration that changes the balance debits exactly the Kelly
stake, and only under the guards 1 <= stake and stake <= balance. -/
theorem claim_C8_entry_balance_nonneg (P : EntryParams)
    (cands : List EntryCandidate) (s : EntryState) (h : 0 ≤ s.balance) :
    0 ≤ (process_markets P cands s).balance
    ∧ (∀ pre suf, cands = pre ++ suf → 0 ≤ (process_markets P pre s).balance)
    ∧ (∀ (c : EntryCandidate) (t : EntryState),
        (process_market P t c).balance ≠ t.balance →
        1 ≤ t.balance * kelly_stake c.true_win_prob c.price P.kelly_fraction ∧
        t.balance * kelly_stake c.true_win_prob c.price P.kelly_fraction ≤
          t.balance ∧
        (process_market P t c).balance =
          t.balance - t.balance * kelly_stake c.true_win_prob c.price
            P.kelly_fraction) := by
  refine ⟨process_markets_balance_nonneg P cands s h, ?_, ?_⟩
  · intro pre suf hps
    exact process_markets_balance_nonneg P pre s h
  · intro c t hne
    unfold process_market at hne ⊢
    dsimp only at hne ⊢
    split_ifs at hne ⊢ with h1 h2 h3 h4 h5 h6
    · exact absurd rfl hne
    · exact absurd rfl hne
    · exact absurd rfl hne
    · push_neg at h3 h4
      exact ⟨h3, h4, rfl⟩
    · exact absurd rfl hne
    · exact absurd rfl hne
    · exact absurd rfl hne

/-- Witness for C8: starting from balance 100 with one fully passing
candidate, the final balance is non-negative. -/
theorem claim_C8_entry_balance_nonneg_witness :
    0 ≤ (process_markets entry_params_w [entry_cand_w]
      (init_entry_state 100 [])).balance :=
  (claim_C8_entry_balance_nonneg entry_params_w [entry_cand_w]
    (init_entry_state 100 []) (by norm_num [init_entry_state])).1

/-- One entry-loop iteration preserves the invariant that open-position
market ids are pairwise distinct and all covered by the open-market set:
a market whose id is already in the set is skipped, and a recorded entry
immediately adds its id to the set. -/
theorem process_market_ids_invariant (P : EntryParams) (c : EntryCandidate)
    (s : EntryState)
    (h1 : (s.open_positions.map Position.market_id).Nodup)
    (h2 : ∀ p ∈ s.open_positions, p.market_id ∈ s.open_market_ids) :
    ((process_market P s c).open_positions.map Position.market_id).Nodup ∧
    ∀ p ∈ (process_market P s c).open_positions,
      p.market_id ∈ (process_market P s c).open_market_ids := by
  unfold process_market
  dsimp only
  split_ifs with hmem hpre hlt hgt hpost hord
  · exact ⟨h1, h2⟩
  · exact ⟨h1, h2⟩
  · exact ⟨h1, h2⟩
  · constructor
    · dsimp only
      rw [List.map_append, List.nodup_append]
      refine ⟨h1, List.nodup_singleton _, ?_⟩
      intro x hx
      obtain ⟨p, hp, rfl⟩ := List.mem_map.mp hx
      simp only [List.map_cons, List.map_nil, List.mem_singleton]
      intro hpc
      have hpc2 : p.market_id = c.market_id := hpc
      exact hmem (hpc2 ▸ h2 p hp)
    · dsimp only
      intro p hp
      rcases List.mem_append.mp hp with hp | hp
      · exact Finset.mem_insert_of_mem (h2 p hp)
      · rcases List.mem_singleton.mp hp with rfl
        exact Finset.mem_insert_self _ _
  · exact ⟨h1, h2⟩
  · exact ⟨h1, h2⟩
  · exact ⟨h1, h2⟩

/-- The whole entry loop preserves the distinct-open-market invariant. -/
theorem process_markets_ids_invariant (P : EntryParams) :
    ∀ (cands : List EntryCandidate) (s : EntryState),
      (s.open_positions.map Position.market_id).Nodup →
      (∀ p ∈ s.open_positions, p.market_id ∈ s.open_market_ids) →
      ((process_markets P cands s).open_positions.map Position.market_id).Nodup ∧
      ∀ p ∈ (process_markets P cands s).open_positions,
        p.market_id ∈ (process_markets P cands s).open_market_ids := by
  intro cands
  induction cands with
  | nil => intro s a b; exact ⟨a, b⟩
  | cons c rest ih =>
      intro s a b
      obtain ⟨a2, b2⟩ := process_market_ids_invariant P c s a b
      exact ih _ a2 b2

/-- C9: the entry loop never opens two positions in the same market.  If
the open positions carried pairwise distinct market ids before the score
event, the combined list after processing still carries pairwise distinct
market ids (the open-market set is initialised from the open positions
exactly as in lines 1042-1044 of strategy.rs). -/
theorem claim_C9_unique_open_market (P : EntryParams)
    (cands : List EntryCandidate) (balance : ℚ) (open0 : List Position)
    (h : (open0.map Position.market_id).Nodup) :
    ((process_markets P cands
        (init_entry_state balance open0)).open_positions.map
      Position.market_id).Nodup :=
  (process_markets_ids_invariant P cands (init_entry_state balance open0) h
    (fun p hp => List.mem_toFinset.mpr (List.mem_map_of_mem _ hp))).1

/-- Witness for C9: starting from no open positions and one fully
passing candidate, the recorded positions carry distinct market ids. -/
theorem claim_C9_unique_open_market_witness :
    ((process_markets entry_params_w [entry_cand_w]
        (init_entry_state 100 [])).open_positions.map
      Position.market_id).Nodup :=
  claim_C9_unique_open_market entry_params_w [entry_cand_w] 100 []
    (by simp)

/-- Lookup on the empty map finds nothing. -/
theorem assoc_get_nil {β : Type} (k : String) :
    assoc_get ([] : List (String × β)) k = none := rfl

/-- Lookup finds the entry at the head of the map. -/
theorem assoc_get_cons_self {β : Type} (m : List (String × β)) (k : String)
    (v : β) : assoc_get ((k, v) :: m) k = some v := by
  simp [assoc_get, List.find?]

/-- Lookup misses when no entry carries the key. -/
theorem assoc_get_eq_none {β : Type} (m : List (String × β)) (k : String)
    (h : ∀ e ∈ m, e.1 ≠ k) : assoc_get m k = none := by
  unfold assoc_get
  rw [List.find?_eq_none.mpr]
  · rfl
  · intro x hx
    simpa using h x hx

/-- Replacing an absent key leaves the rest of the map unchanged. -/
theorem eraseP_eq_self_of_absent {β : Type} (m : List (String × β)) (k : String)
    (h : ∀ e ∈ m, e.1 ≠ k) :
    m.eraseP (fun e => decide (e.1 = k)) = m := by
  apply List.eraseP_of_forall_not
  intro a ha
  simpa using h a ha

/-- The pruning pass never grows the recent-fingerprint map. -/
theorem cleanup_recent_length_le (w now : ℤ) (s : EngineDedupState) :
    (cleanup_event_quality_maps w now s).recent_event_keys.length ≤
      s.recent_event_keys.length := by
  unfold cleanup_event_quality_maps
  dsimp only
  split_ifs
  · simp
  · exact List.length_filter_le _ _

/-- When the first call does not skip, it records the fingerprint and the
score state in the cleaned maps. -/
theorem should_skip_event_false_state (w now : ℤ) (ev : ScoreEvent)
    (s : EngineDedupState)
    (h : (should_skip_event w now ev s).1 = false) :
    (should_skip_event w now ev s).2 =
      ⟨assoc_insert (cleanup_event_quality_maps w now s).recent_event_keys
          (event_dedup_key ev) now,
        assoc_insert (cleanup_event_quality_maps w now s).last_score_by_event
          ev.event_id (ev.home_score, ev.away_score, now)⟩ := by
  unfold should_skip_event at h ⊢
  dsimp only at h ⊢
  split_ifs at h ⊢
  rfl

/-- A call whose cleaned recent-fingerprint map still holds the
fingerprint with a timestamp inside the dedup window reports a skip. -/
theorem skip_of_recent_hit (w now : ℤ) (ev : ScoreEvent)
    (s : EngineDedupState) (prev : ℤ)
    (hget : assoc_get (cleanup_event_quality_maps w now s).recent_event_keys
        (event_dedup_key ev) = some prev)
    (hfresh : prev + w ≥ now) :
    (should_skip_event w now ev s).1 = true := by
  unfold should_skip_event
  dsimp only
  rw [hget]
  dsimp only
  rw [if_pos (by simpa using hfresh)]

/-- Pruning a state whose recent-fingerprint map starts with a fresh
entry keeps that entry at the head, provided the filtered tail stays
within the hard-reset bound. -/
theorem cleanup_recent_cons (w now ts : ℤ) (k : String)
    (R : List (String × ℤ)) (L : List (String × (ℤ × ℤ × ℤ)))
    (hts : now - w * 3 ≤ ts)
    (hlen : (R.filter (fun e => decide (e.2 ≥ now - w * 3))).length ≤ 99999) :
    (cleanup_event_quality_maps w now ⟨(k, ts) :: R, L⟩).recent_event_keys =
      (k, ts) :: R.filter (fun e => decide (e.2 ≥ now - w * 3)) := by
  unfold cleanup_event_quality_maps
  dsimp only
  rw [List.filter_cons_of_pos (by simpa using hts)]
  rw [if_neg (by
    simp only [List.length_cons, gt_iff_lt, not_lt]
    omega)]

/-- C5 amended: if a score event is processed (not skipped) at time t,
then a second event with the same fingerprint arriving at time t2 with
t <= t2 <= t + W is skipped, provided the recent-fingerprint map held at
most 99999 entries at the first call, so that the 100000-entry hard reset
of cleanup_event_quality_maps cannot fire in between. -/
theorem claim_C5_amended_dedup (w t t2 : ℤ) (ev ev2 : ScoreEvent)
    (s : EngineDedupState) (hw : 0 ≤ w)
    (hsize : s.recent_event_keys.length ≤ 99999)
    (hid : ev2.event_id = ev.event_id) (hh : ev2.home_score = ev.home_score)
    (ha : ev2.away_score = ev.away_score) (hm : ev2.minute = ev.minute)
    (hty : ev2.event_type = ev.event_type) (hlg : ev2.league = ev.league)
    (hfirst : (should_skip_event w t ev s).1 = false)
    (h1 : t ≤ t2) (h2 : t2 ≤ t + w) :
    (should_skip_event w t2 ev2 (should_skip_event w t ev s).2).1 = true := by
  have hkey : event_dedup_key ev2 = event_dedup_key ev := by
    unfold event_dedup_key
    rw [hid, hh, ha, hm, hty, hlg]
  rw [should_skip_event_false_state w t ev s hfirst]
  unfold assoc_insert
  have hlenR :
      ((cleanup_event_quality_maps w t s).recent_event_keys.eraseP
        (fun e => decide (e.1 = event_dedup_key ev))).length ≤ 99999 :=
    le_trans (List.Sublist.length_le (List.eraseP_sublist _))
      (le_trans (cleanup_recent_length_le w t s) hsize)
  apply skip_of_recent_hit w t2 ev2 _ t _ (by linarith)
  rw [hkey]
  rw [cleanup_recent_cons w t2 t (event_dedup_key ev) _ _ (by linarith)
    (le_trans (List.length_filter_le _ _) hlenR)]
  exact assoc_get_cons_self _ _ _

/-- Witness for C5 amended: starting from the empty dedup state, a
concrete event processed at time 0 is skipped when repeated at time 5
with window 20. -/
theorem claim_C5_amended_dedup_witness :
    (should_skip_event 20 5 dedup_cex_event
      (should_skip_event 20 0 dedup_cex_event ⟨[], []⟩).2).1 = true :=
  claim_C5_amended_dedup 20 0 5 dedup_cex_event dedup_cex_event ⟨[], []⟩
    (by decide) (by decide) rfl rfl rfl rfl rfl rfl (by decide) (by decide)
    (by decide)

/-- The fingerprint of every filler event differs from the fingerprint of
the concrete event (their event ids start with different letters). -/
theorem dedup_spam_key_ne (i : ℕ) :
    event_dedup_key (dedup_spam_event i) ≠ event_dedup_key dedup_cex_event := by
  intro hcontra
  have hd := congrArg String.data hcontra
  simp only [event_dedup_key, dedup_spam_event, dedup_cex_event,
    String.data_append] at hd
  simp at hd

/-- The event id of every filler event differs from the event id of the
concrete event. -/
theorem dedup_spam_id_ne (i : ℕ) :
    (dedup_spam_event i).event_id ≠ dedup_cex_event.event_id := by
  intro hcontra
  have hd := congrArg String.data hcontra
  simp only [dedup_spam_event, dedup_cex_event, String.data_append] at hd
  simp at hd

/-- All filler entries of the recent-fingerprint map are fresh for any
cutoff at or below zero. -/
theorem dedup_cex_recent_fresh (c : ℤ) (hc : c ≤ 0) :
    dedup_cex_recent.filter (fun e => decide (e.2 ≥ c)) = dedup_cex_recent := by
  apply List.filter_eq_self.mpr
  intro a ha
  unfold dedup_cex_recent at ha
  obtain ⟨i, hi, rfl⟩ := List.mem_map.mp ha
  simpa using hc

/-- All filler entries of the last-score map are fresh for any cutoff at
or below zero. -/
theorem dedup_cex_last_fresh (c : ℤ) (hc : c ≤ 0) :
    dedup_cex_last.filter (fun e => decide (e.2.2.2 ≥ c)) = dedup_cex_last := by
  apply List.filter_eq_self.mpr
  intro a ha
  unfold dedup_cex_last at ha
  obtain ⟨i, hi, rfl⟩ := List.mem_map.mp ha
  simpa using hc

/-- The filler recent-fingerprint map has exactly 100000 entries. -/
theorem dedup_cex_recent_length : dedup_cex_recent.length = 100000 := by
  unfold dedup_cex_recent
  rw [List.length_map, List.length_range]

/-- The filler last-score map has exactly 100000 entries. -/
theorem dedup_cex_last_length : dedup_cex_last.length = 100000 := by
  unfold dedup_cex_last
  rw [List.length_map, List.length_range]

/-- The concrete event fingerprint is absent from the filler map. -/
theorem dedup_cex_recent_none :
    assoc_get dedup_cex_recent (event_dedup_key dedup_cex_event) = none := by
  apply assoc_get_eq_none
  intro e he
  unfold dedup_cex_recent at he
  obtain ⟨i, hi, rfl⟩ := List.mem_map.mp he
  exact dedup_spam_key_ne i

/-- The concrete event id is absent from the filler last-score map. -/
theorem dedup_cex_last_none :
    assoc_get dedup_cex_last dedup_cex_event.event_id = none := by
  apply assoc_get_eq_none
  intro e he
  unfold dedup_cex_last at he
  obtain ⟨i, hi, rfl⟩ := List.mem_map.mp he
  exact dedup_spam_id_ne i

/-- The concrete event fingerprint is not erased from the filler map
because it never occurs in it. -/
theorem dedup_cex_recent_erase :
    dedup_cex_recent.eraseP
      (fun e => decide (e.1 = event_dedup_key dedup_cex_event)) =
      dedup_cex_recent := by
  apply eraseP_eq_self_of_absent
  intro e he
  unfold dedup_cex_recent at he
  obtain ⟨i, hi, rfl⟩ := List.mem_map.mp he
  exact dedup_spam_key_ne i

/-- The concrete event id is not erased from the filler last-score map
because it never occurs in it. -/
theorem dedup_cex_last_erase :
    dedup_cex_last.eraseP
      (fun e => decide (e.1 = dedup_cex_event.event_id)) = dedup_cex_last := by
  apply eraseP_eq_self_of_absent
  intro e he
  unfold dedup_cex_last at he
  obtain ⟨i, hi, rfl⟩ := List.mem_map.mp he
  exact dedup_spam_id_ne i

/-- Pruning the full counterexample state at a time at or before all its
entries became stale leaves it unchanged: each map still holds exactly
100000 entries, one below the hard-reset bound. -/
theorem dedup_cex_cleanup (now : ℤ) (h0 : now - 20 * 3 ≤ 0) :
    cleanup_event_quality_maps 20 now dedup_cex_state = dedup_cex_state := by
  unfold cleanup_event_quality_maps dedup_cex_state
  dsimp only
  rw [dedup_cex_recent_fresh _ h0, dedup_cex_last_fresh _ h0]
  rw [if_neg (by rw [dedup_cex_recent_length]; decide),
    if_neg (by rw [dedup_cex_last_length]; decide)]

/-- The first call on the full counterexample state processes the event
(no skip) and records its fingerprint and score state on top of the
100000 filler entries. -/
theorem dedup_cex_first :
    should_skip_event 20 0 dedup_cex_event dedup_cex_state =
      (false,
        ⟨(event_dedup_key dedup_cex_event, 0) :: dedup_cex_recent,
          (dedup_cex_event.event_id,
            (dedup_cex_event.home_score, dedup_cex_event.away_score, 0)) ::
            dedup_cex_last⟩) := by
  unfold should_skip_event
  dsimp only
  rw [dedup_cex_cleanup 0 (by decide)]
  unfold dedup_cex_state
  dsimp only
  rw [dedup_cex_recent_none, dedup_cex_last_none]
  dsimp only
  unfold assoc_insert
  rw [dedup_cex_recent_erase, dedup_cex_last_erase]
  rfl

/-- A call whose pruning pass hard-resets both maps can never skip: both
lookups miss the empty maps. -/
theorem skip_false_of_cleanup_empty (w now : ℤ) (ev : ScoreEvent)
    (s : EngineDedupState)
    (hcl : cleanup_event_quality_maps w now s = ⟨[], []⟩) :
    (should_skip_event w now ev s).1 = false := by
  unfold should_skip_event
  dsimp only
  rw [hcl]
  rfl

/-- The second call, one second later, hard-resets both maps (each now
holds 100001 fresh entries) and therefore processes the duplicate event
again instead of skipping it. -/
theorem dedup_cex_second :
    (should_skip_event 20 1 dedup_cex_event
      ⟨(event_dedup_key dedup_cex_event, 0) :: dedup_cex_recent,
        (dedup_cex_event.event_id,
          (dedup_cex_event.home_score, dedup_cex_event.away_score, 0)) ::
          dedup_cex_last⟩).1 = false := by
  have hcl : cleanup_event_quality_maps 20 1
      ⟨(event_dedup_key dedup_cex_event, 0) :: dedup_cex_recent,
        (dedup_cex_event.event_id,
          (dedup_cex_event.home_score, dedup_cex_event.away_score, 0)) ::
          dedup_cex_last⟩ = ⟨[], []⟩ := by
    unfold cleanup_event_quality_maps
    dsimp only
    rw [List.filter_cons_of_pos (by decide), dedup_cex_recent_fresh _ (by decide)]
    rw [List.filter_cons_of_pos (by decide), dedup_cex_last_fresh _ (by decide)]
    rw [if_pos (by rw [List.length_cons, dedup_cex_recent_length]; omega),
      if_pos (by rw [List.length_cons, dedup_cex_last_length]; omega)]
  exact skip_false_of_cleanup_empty 20 1 dedup_cex_event _ hcl

/-- Counterexample for C5: on the counterexample state (100000 distinct
games seen within the window), an event processed at time 0 and repeated
identically at time 1, well within the 20 second dedup window, is NOT
skipped: the 100000-entry hard reset of both dedup maps erases its
fingerprint between the two calls, so the duplicate yields a second
decision. -/
theorem claim_C5_counterexample :
    (0 : ℤ) ≤ 1 ∧ (1 : ℤ) ≤ 0 + 20
    ∧ (should_skip_event 20 0 dedup_cex_event dedup_cex_state).1 = false
    ∧ (should_skip_event 20 1 dedup_cex_event
        (should_skip_event 20 0 dedup_cex_event dedup_cex_state).2).1 = false := by
  refine ⟨by decide, by decide, ?_, ?_⟩
  · rw [dedup_cex_first]
  · rw [dedup_cex_first]
    exact dedup_cex_second
